import Mathlib

/-!
Shallow embedding of `code/client/munkilib/osinstaller.py` (munki), the
process-supervision core for running `startosinstall`.

Python strings are modelled as Lean `String` (the source decodes subprocess
output as UTF-8 before all of the operations modelled here, so it operates on
code points, as `String` does).  Python `float`/`int` are modelled exactly: a
decimal literal is carried as `mantissa * 10 ^ exp10` with a sign, which is its
exact rational value (the IEEE-754 rounding of a literal to the nearest double
is not modelled; it never changes whether a parse succeeds, nor whether the
value is infinite or NaN, which is all the downstream code depends on).
External collaborators (disk-image mounting, directory listing, plist reading,
the status sink) are modelled by their results, carried in a `World`
structure, and by an `Effect` trace.
-/

set_option maxRecDepth 40000

namespace OSInstaller

/-- Python str.startswith, over the code points of the string (implemented on
the character list so that it computes by kernel reduction). -/
def pyStartsWith (s p : String) : Bool :=
  p.data.isPrefixOf s.data

/-- Python slicing `s[n:]` by code points. -/
def pyDropChars (s : String) (n : Nat) : String :=
  String.mk (s.data.drop n)

/-- Python str.rstrip restricted to a character predicate: drop the longest
trailing run of characters satisfying `p`. -/
def pyRstrip (p : Char → Bool) (s : String) : String :=
  String.mk ((s.data.reverse.dropWhile p).reverse)

/-- Python whitespace characters recognised by `str.strip()` / `float()`
(ASCII subset; the source only ever meets ASCII output here). -/
def isPySpace (c : Char) : Bool :=
  c = ' ' || c = '\t' || c = '\n' || c = '\x0d' || c = '\x0b' || c = '\x0c'

/-- Python str.strip() (both ends, whitespace), as applied by `float()` to its
argument before parsing. -/
def pyStripSpaces (l : List Char) : List Char :=
  ((l.dropWhile isPySpace).reverse.dropWhile isPySpace).reverse

/-- Optional leading sign of a Python float literal; returns (isNegative,
rest). -/
def splitSign : List Char → Bool × List Char
  | '+' :: rest => (false, rest)
  | '-' :: rest => (true, rest)
  | l => (false, l)

/-- Numeric value of a run of decimal digits (most significant first). -/
def digitsVal (l : List Char) : Nat :=
  l.foldl (fun acc c => acc * 10 + (c.toNat - 48)) 0

/-- Exact value of an unsigned decimal literal: `mantissa * 10 ^ exp10`. -/
structure DecLiteral where
  mantissa : Nat
  exp10 : Int
deriving DecidableEq

/-- Finite Python float value: a sign and an unsigned decimal literal. -/
structure PyFinite where
  mantissa : Nat
  exp10 : Int
  neg : Bool
deriving DecidableEq

/-- Exact rational value of a finite Python float (used in statements and
proofs only). -/
def PyFinite.val (f : PyFinite) : ℚ :=
  (if f.neg then (-1 : ℚ) else 1) * (f.mantissa : ℚ) * (10 : ℚ) ^ f.exp10

/-- Result of Python `float(s)`: a finite value, an infinity, or NaN. -/
inductive PyFloat
  | finite (f : PyFinite)
  | infinite (neg : Bool)
  | nan
deriving DecidableEq

/-- Parse the digits/point/exponent part of a Python float literal (after sign
removal): `digits [. digits] [(e|E) [sign] digits]`, with at least one digit
before the exponent marker.  Returns the exact value, or `none` on a malformed
literal (where Python `float()` raises ValueError). -/
def parseDecimal (l : List Char) : Option DecLiteral :=
  let ip := l.takeWhile Char.isDigit
  let r1 := l.dropWhile Char.isDigit
  let fpr2 : List Char × List Char :=
    match r1 with
    | '.' :: t => (t.takeWhile Char.isDigit, t.dropWhile Char.isDigit)
    | _ => ([], r1)
  let fp := fpr2.1
  let r2 := fpr2.2
  if ip.isEmpty && fp.isEmpty then none
  else
    let m := digitsVal (ip ++ fp)
    let e0 : Int := -(fp.length : Int)
    match r2 with
    | [] => some ⟨m, e0⟩
    | c :: t =>
      if c = 'e' || c = 'E' then
        let sg := splitSign t
        let ed := sg.2.takeWhile Char.isDigit
        let r3 := sg.2.dropWhile Char.isDigit
        if ed.isEmpty || !r3.isEmpty then none
        else if sg.1 then some ⟨m, e0 - (digitsVal ed : Int)⟩
        else some ⟨m, e0 + (digitsVal ed : Int)⟩
      else none

/-- Smallest integer magnitude at which a decimal literal overflows an
IEEE-754 double: the midpoint between the largest finite double and 2^1024
(round-to-nearest-even sends everything at or above it to infinity). -/
def doubleOverflowNat : Nat := 2 ^ 1024 - 2 ^ 970

/-- Does the literal `m * 10 ^ e` reach the double-overflow magnitude?
Stated over integers so it computes: for e ≥ 0 compare `m * 10 ^ e` with the
threshold, for e < 0 compare `m` with the threshold scaled by `10 ^ (-e)`. -/
def overflowsDouble (d : DecLiteral) : Bool :=
  if 0 ≤ d.exp10 then decide (doubleOverflowNat ≤ d.mantissa * 10 ^ d.exp10.toNat)
  else decide (doubleOverflowNat * 10 ^ (-d.exp10).toNat ≤ d.mantissa)

/-- Python `float(s)`: strip whitespace, take an optional sign, then either a
case-insensitive `inf`/`infinity`/`nan` keyword or a decimal literal; `none`
models ValueError.  Finite literals whose magnitude reaches the double
overflow threshold become infinities, as C strtod (hence Python) produces. -/
def pyFloatOfString (s : String) : Option PyFloat :=
  let body0 := pyStripSpaces s.data
  let sg := splitSign body0
  let neg := sg.1
  let body := sg.2
  let lower := body.map Char.toLower
  if lower = "inf".data || lower = "infinity".data then some (.infinite neg)
  else if lower = "nan".data then some .nan
  else
    match parseDecimal body with
    | none => none
    | some d =>
      if overflowsDouble d then some (.infinite neg)
      else some (.finite ⟨d.mantissa, d.exp10, neg⟩)

/-- Python `int()` of a finite float, computed over integers: truncate the
magnitude (integer division by the power of ten floors the nonnegative
magnitude, which is truncation toward zero), then apply the sign. -/
def pyIntOfFinite (f : PyFinite) : Int :=
  let mag : Nat :=
    if 0 ≤ f.exp10 then f.mantissa * 10 ^ f.exp10.toNat
    else f.mantissa / 10 ^ (-f.exp10).toNat
  if f.neg then -(mag : Int) else (mag : Int)

/-- Result of Python `int(float(s))` wrapped in the source's
`except ValueError: percent = -1` handler (osinstaller.py lines 205-208):
a ValueError from `float()` or from `int()` of NaN is caught and yields -1;
`int()` of an infinity raises OverflowError, which the handler does not
catch. -/
def pyIntFloatCaught (s : String) : Except Unit Int :=
  match pyFloatOfString s with
  | none => .ok (-1)
  | some .nan => .ok (-1)
  | some (.infinite _) => .error ()
  | some (.finite f) => .ok (pyIntOfFinite f)

/-- Classification of one (already newline-stripped) output line, lines
198-211 of osinstaller.py. -/
inductive ClassifyResult
  | ignored
  | progress (percent : Int)
  | statusLine (msg : String)
  | overflowRaised
deriving DecidableEq

/-- Classify an output message `msg` (the line after `rstrip` of newlines):
license boilerplate is dropped; `Preparing ` (but not `Preparing to run `)
lines yield a percentage from the slice `msg[10:]` stripped of trailing
whitespace and trailing periods, with ValueError mapped to -1; anything else
is forwarded as minor status. -/
def classifyMsg (msg : String) : ClassifyResult :=
  if pyStartsWith msg "By using the agreetolicense option" then .ignored
  else if pyStartsWith msg "If you do not agree," then .ignored
  else if pyStartsWith msg "Preparing " && !(pyStartsWith msg "Preparing to run ") then
    match pyIntFloatCaught (pyRstrip (fun c => c = '.') (pyRstrip isPySpace (pyDropChars msg 10))) with
    | .ok p => .progress p
    | .error _ => .overflowRaised
  else .statusLine msg

/-! ## Version comparison (spec-modelled)

`pkgutils.MunkiLooseVersion` is not under `src/`; only its call site
(osinstaller.py lines 153-154) is.  Its comparison is modelled from the spec:
"Conditionally appends a `--volume /` flag only when the resolved OS version
is semantically less than 10.12.4 ... Version comparison must treat
missing/unparseable version strings as less-than". -/

/-- Longest numeric prefix of a list of parsed components: stop at the first
component that is not a number. -/
def numericPrefix : List (Option Nat) → List Nat
  | [] => []
  | none :: _ => []
  | some n :: rest => n :: numericPrefix rest

/-- Split a character list on a separator character (like str.split with a
one-character separator: `n` separators yield `n + 1` chunks). -/
def splitOnChar (sep : Char) : List Char → List (List Char)
  | [] => [[]]
  | c :: rest =>
    let r := splitOnChar sep rest
    if c = sep then [] :: r
    else
      match r with
      | [] => [[c]]
      | h :: t => (c :: h) :: t

/-- Numeric value of one version component: defined only when it is a
nonempty run of digits. -/
def chunkToNat? (l : List Char) : Option Nat :=
  if !l.isEmpty && l.all Char.isDigit then some (digitsVal l) else none

/-- Modelled from the spec: the numeric dot-separated components of a version
string (`pkgutils.MunkiLooseVersion` is not under src/).  An empty or
unparseable string yields no components, the minimum. -/
def looseVersionParts (s : String) : List Nat :=
  numericPrefix ((splitOnChar '.' s.data).map chunkToNat?)

/-- Lexicographic comparison of equal-length numeric component lists. -/
def lexLtNat : List Nat → List Nat → Bool
  | _, [] => false
  | [], _ :: _ => true
  | a :: as, b :: bs => decide (a < b) || (decide (a = b) && lexLtNat as bs)

/-- Modelled from the spec: semantic less-than on version strings, comparing
numeric dot-separated components left to right with the shorter list padded
with zeros, so that missing/unparseable strings compare as less than any
positive version. -/
def looseVersionLt (a b : String) : Bool :=
  let pa := looseVersionParts a
  let pb := looseVersionParts b
  let n := max pa.length pb.length
  lexLtNat (pa ++ List.replicate (n - pa.length) 0)
           (pb ++ List.replicate (n - pb.length) 0)

/-! ## Effects, the launch command and the supervised loop -/

/-- Externally visible actions of the supervision run, in the order they are
performed.  Display/log calls carry their message; unmount and kill carry no
argument (the unmount target is the tracked mountpoint). -/
inductive Effect
  | setSigusr1Handler
  | displayInfo (s : String)
  | displayStatusMajor (s : String)
  | displayStatusMinor (s : String)
  | displayPercentDone (current total : Int)
  | displayError (s : String)
  | sleepSeconds (n : Nat)
  | killProc
  | unmountDmg
  | munkiLog (s : String)
  | munkistatusPercent (n : Nat)
  | subprocessCall (args : List String)
  | spawn (cmd : List String) (env : List (String × String))
deriving DecidableEq

/-- Exception raised when starting the macOS install fails
(osinstaller.py lines 41-43); carries the formatted message. -/
structure StartOSInstallError where
  message : String
deriving DecidableEq

/-- Python os.path.join for two components (posixpath semantics). -/
def pathJoin (a b : String) : String :=
  if pyStartsWith b "/" then b
  else if a = "" || (a.data.getLast? = some '/') then a ++ b
  else a ++ "/" ++ b

/-- State of the supervised session that the SIGUSR1 handler could in
principle touch: the inactivity counter, the accumulated output and the
tracked mountpoint. -/
structure ProcessSession where
  inactive : Nat
  output : List String
  dmgMountpoint : Option String
deriving DecidableEq

/-- Signal handler for SIGUSR1 from startosinstall (osinstaller.py lines
52-62): log receipt, sleep one second, then broadcast SIGUSR1 via
`killall` to every process named `startosinstall` (the commented-out direct
`os.kill` to the spawned pid is not used).  It reads and writes no session
state, so it returns the session unchanged. -/
def sigusr1_handler (session : ProcessSession) : List Effect × ProcessSession :=
  ([.displayInfo "Got SIGUSR1 from startosinstall",
    .sleepSeconds 1,
    .subprocessCall ["/usr/bin/killall", "-SIGUSR1", "startosinstall"]],
   session)

/-- One iteration of the read loop as seen from outside: what
`proc.stdout.readline()` returns (decoded; empty string means no data) and
what `proc.poll()` would return (consulted only when there was no data). -/
structure Tick where
  readlineOut : String
  pollResult : Option Int
deriving DecidableEq

/-- External world supplying the results of every collaborator call the
supervision run makes: validity of the disk-image extension
(`pkgutils.hasValidDiskImageExt`), the mountpoints returned by
`dmgutils.mountdmg`, the top-level entries of the first mountpoint paired with
whether `Contents/Resources/startosinstall` exists under each
(`osutils.listdir` / `os.path.exists`), the version read from
`InstallInfo.plist` (`none` models a missing/unreadable file), the directory
holding this library, which paths exist for the ptyexec lookup, the
supervisor pid, the parent environment, the per-iteration results of
`proc.stdout.readline()` / `proc.poll()`, and the drained
`proc.stderr.read().splitlines()`. -/
structure World where
  validDiskImageExt : Bool
  mountpoints : List String
  dirItems : List (String × Bool)
  installInfoVersion : Option String
  parentDir : String
  pathExists : String → Bool
  pid : Nat
  parentEnv : List (String × String)
  ticks : List Tick
  stderrLines : List String

/-- Character 39, the apostrophe (kept out of string literals). -/
def apos : String := String.mk [Char.ofNat 39]

/-- Result of `get_tool_paths`: the effects performed, the resulting
`self.dmg_mountpoint`, and either the pair (app path, startosinstall path) or
the raised `StartOSInstallError`. -/
structure ToolPathsResult where
  effects : List Effect
  dmgMountpoint : Option String
  result : Except StartOSInstallError (String × String)

/-- Scan of the first mountpoint (osinstaller.py lines 73-78): for each
directory item, if `Contents/Resources/startosinstall` exists under it,
return that item path and the tool path. -/
def findApp (mountpoint : String) : List (String × Bool) → Option (String × String)
  | [] => none
  | (item, hasTool) :: rest =>
    let item_path := pathJoin mountpoint item
    if hasTool then some (item_path, pathJoin item_path "Contents/Resources/startosinstall")
    else findApp mountpoint rest

/-- Mount the disk image and locate the Install macOS.app and its
startosinstall tool (osinstaller.py lines 64-90).  Rejects paths without a
valid disk-image extension, fails when nothing mounts, and unmounts again
when no app on the volume contains the tool. -/
def get_tool_paths (w : World) (dmgpath : String) : ToolPathsResult :=
  if w.validDiskImageExt then
    let fx := [Effect.displayInfo ("Mounting disk image " ++ dmgpath)]
    match w.mountpoints with
    | [] => ⟨fx, none, .error ⟨"No filesystems mounted from " ++ dmgpath⟩⟩
    | mp :: _ =>
      match findApp mp w.dirItems with
      | some paths => ⟨fx, some mp, .ok paths⟩
      | none =>
        ⟨fx ++ [.unmountDmg], none,
         .error ⟨"Valid Install macOS.app not found on " ++ dmgpath⟩⟩
  else ⟨[], none, .error ⟨dmgpath ++ " doesn" ++ apos ++ "t appear to be a disk image"⟩⟩

/-- OS version from the installer metadata (osinstaller.py lines 92-102): the
plist read is a collaborator, modelled by its result; any failure (missing
file, parse error, missing key) was already collapsed to `none` and yields
the empty string. -/
def get_os_version (w : World) : String :=
  match w.installInfoVersion with
  | none => ""
  | some v => v

/-- Choice of the terminal-emulation wrapper (osinstaller.py lines 131-144):
prefer `ptyexec` next to the library, then the fixed munki install path, then
fall back to `/usr/bin/script` in transient mode. -/
def wrapperCmd (w : World) : List String :=
  let p1 := pathJoin w.parentDir "ptyexec"
  let p := if w.pathExists p1 then p1 else "/usr/local/munki/ptyexec"
  if w.pathExists p then [p]
  else ["/usr/bin/script", "-q", "-t", "1", "/dev/null"]

/-- The fixed startosinstall arguments (osinstaller.py lines 146-151). -/
def fixedArgs (startosinstall_path install_app_path pidStr : String) : List String :=
  [startosinstall_path,
   "--agreetolicense",
   "--applicationpath", install_app_path,
   "--rebootdelay", "300",
   "--pidtosignal", pidStr,
   "--nointeraction"]

/-- The full command line (osinstaller.py lines 138-157): wrapper, tool and
fixed flags, then `--volume /` appended exactly when the resolved OS version
is less than 10.12.4. -/
def buildCmd (w : World) (startosinstall_path install_app_path pidStr os_version : String) :
    List String :=
  wrapperCmd w ++ fixedArgs startosinstall_path install_app_path pidStr
  ++ (if looseVersionLt os_version "10.12.4" then ["--volume", "/"] else [])

/-- Environment passed to `subprocess.Popen` (osinstaller.py line 161). -/
def spawnEnvArg : List (String × String) := [("NSUnbufferedIO", ",YES")]

/-- Child environment under `subprocess.Popen` semantics: a given `env`
mapping replaces the parent environment wholly; only `env=None` would inherit
it. -/
def popenChildEnv (envArg : Option (List (String × String)))
    (parentEnv : List (String × String)) : List (String × String) :=
  match envArg with
  | none => parentEnv
  | some e => e

/-- Inactivity ceiling of the read loop (osinstaller.py line 169). -/
def timeoutSeconds : Nat := 2 * 60 * 60

/-- Timeout diagnostic, `"startosinstall timeout after %d seconds" % timeout`
(osinstaller.py lines 181-183). -/
def timeoutMsg : String :=
  "startosinstall timeout after " ++ toString timeoutSeconds ++ " seconds"

/-- How the read loop ended: the process was observed exited (with the code
`proc.poll()` returned), the inactivity ceiling was hit and the process
killed, an uncaught OverflowError aborted the loop, or the supplied tick
script ran out (a model artifact: the real loop always ends one of the other
ways). -/
inductive LoopOutcome
  | exited (code : Int)
  | timedKill
  | raisedOverflow
  | exhausted
deriving DecidableEq

/-- Result of the read loop: how it ended, the accumulated output lines, and
the effects it performed. -/
structure LoopResult where
  outcome : LoopOutcome
  output : List String
  effects : List Effect
deriving DecidableEq

/-- The read/classify/timeout loop (osinstaller.py lines 170-211), consuming
one `Tick` per iteration.  No data with the process exited breaks; no data
with it alive bumps the inactivity counter, killing the process at the
ceiling, else sleeping one second; a line resets the counter, is appended to
the accumulated output, and is classified after stripping trailing
newlines. -/
def runLoop : List Tick → Nat → List String → List Effect → LoopResult
  | [], _, out, fx => ⟨.exhausted, out, fx⟩
  | t :: rest, inactive, out, fx =>
    if t.readlineOut = "" then
      match t.pollResult with
      | some code => ⟨.exited code, out, fx⟩
      | none =>
        if timeoutSeconds ≤ inactive + 1 then
          ⟨.timedKill, out, fx ++ [.displayError timeoutMsg, .killProc]⟩
        else
          runLoop rest (inactive + 1) out (fx ++ [.sleepSeconds 1])
    else
      let out2 := out ++ [t.readlineOut]
      match classifyMsg (pyRstrip (fun c => c = '\n') t.readlineOut) with
      | .ignored => runLoop rest 0 out2 fx
      | .progress p => runLoop rest 0 out2 (fx ++ [.displayPercentDone p 100])
      | .statusLine m => runLoop rest 0 out2 (fx ++ [.displayStatusMinor m])
      | .overflowRaised => ⟨.raisedOverflow, out2, fx⟩

/-- Python truthiness of `proc.returncode` as used by `if retcode:`
(osinstaller.py line 215): `None` and `0` are falsy. -/
def pyTruthyRetcode : Option Int → Bool
  | none => false
  | some c => decide (c ≠ 0)

/-- Python `str()` of the return code value as interpolated by `%s`. -/
def pyStrRetcode : Option Int → String
  | none => "None"
  | some c => toString c

/-- The 78-dash separator line `"-" * 78` (osinstaller.py lines 222, 225). -/
def sep78 : String := String.mk (List.replicate 78 '-')

/-- Result of the termination phase: its effects and either normal return or
the raised `StartOSInstallError`. -/
structure FinishResult where
  effects : List Effect
  result : Except StartOSInstallError Unit

/-- Termination handling (osinstaller.py lines 213-230).  A truthy return
code unmounts the volume, appends the drained stderr lines to the
accumulated output, reports the failure, dumps every accumulated line at
error level between separator lines, and raises; otherwise a durable log line
is written and a 100 percent completion event is emitted.  Note
`proc.returncode` is `None` when the loop broke via the timeout kill, because
only `poll()` assigns it and the last poll saw the process alive. -/
def finishPhase (retcode : Option Int) (output stderrLines : List String) : FinishResult :=
  if pyTruthyRetcode retcode then
    let output2 := output ++ stderrLines
    ⟨[Effect.unmountDmg,
      Effect.displayStatusMinor
        ("Starting macOS install failed with return code " ++ pyStrRetcode retcode),
      Effect.displayError sep78]
     ++ output2.map (fun l => Effect.displayError (pyRstrip (fun c => c = '\n') l))
     ++ [Effect.displayError sep78],
     .error ⟨"startosinstall failed with return code " ++ pyStrRetcode retcode⟩⟩
  else
    ⟨[Effect.munkiLog "macOS install successfully set up.",
      Effect.munkistatusPercent 100],
     .ok ()⟩

/-- How one supervision run (`StartOSInstallRunner.start`) ends: normal
return, a raised `StartOSInstallError`, an uncaught OverflowError from the
progress parser, or the tick script running out (model artifact). -/
inductive RunOutcome
  | ok
  | raisedSOSI (e : StartOSInstallError)
  | raisedOverflow
  | stuck
deriving DecidableEq

/-- Result of one supervision run: the effect trace, the final
`self.dmg_mountpoint`, and how it ended. -/
structure StartResult where
  effects : List Effect
  dmgMountpoint : Option String
  outcome : RunOutcome
deriving DecidableEq

/-- Map the termination phase result onto the run outcome. -/
def outcomeOfFinish : Except StartOSInstallError Unit → RunOutcome
  | .ok _ => .ok
  | .error e => .raisedSOSI e

/-- Continuation of `start` after the read loop, dispatching on how the loop
ended.  On an observed exit the return code is the polled code; on the
timeout kill `proc.returncode` is still `None`. -/
def afterLoop (pre : List Effect) (mp : Option String) (stderrLines : List String)
    (lr : LoopResult) : StartResult :=
  match lr.outcome with
  | .raisedOverflow => ⟨pre ++ lr.effects, mp, .raisedOverflow⟩
  | .exhausted => ⟨pre ++ lr.effects, mp, .stuck⟩
  | .exited code =>
    let fr := finishPhase (some code) lr.output stderrLines
    ⟨pre ++ lr.effects ++ fr.effects, mp, outcomeOfFinish fr.result⟩
  | .timedKill =>
    let fr := finishPhase none lr.output stderrLines
    ⟨pre ++ lr.effects ++ fr.effects, mp, outcomeOfFinish fr.result⟩

/-- One supervision run, `StartOSInstallRunner.start` (osinstaller.py lines
104-230): install the SIGUSR1 handler, resolve the tool paths (propagating
`StartOSInstallError`), read the OS version, announce the install, build the
command line, spawn the wrapped installer with the replaced environment,
drive the read loop, then run the termination phase. -/
def start (w : World) (dmgpath : String) : StartResult :=
  match get_tool_paths w dmgpath with
  | ⟨fx, mp, .error e⟩ => ⟨[Effect.setSigusr1Handler] ++ fx, mp, .raisedSOSI e⟩
  | ⟨fx, mp, .ok (install_app_path, startosinstall_path)⟩ =>
    let os_version := get_os_version w
    let cmd := buildCmd w startosinstall_path install_app_path (toString w.pid) os_version
    let pre := [Effect.setSigusr1Handler] ++ fx
      ++ [Effect.displayStatusMajor ("Starting macOS " ++ os_version ++ " install..."),
          Effect.spawn cmd (popenChildEnv (some spawnEnvArg) w.parentEnv)]
    afterLoop pre mp w.stderrLines (runLoop w.ticks 0 [] [])

/-- How the top-level boolean wrapper ends: a returned boolean, or an
exception it does not catch (OverflowError), or the model artifact of an
exhausted tick script. -/
inductive TopOutcome
  | ret (b : Bool)
  | uncaughtOverflow
  | stuck
deriving DecidableEq

/-- The public entry point `startosinstall(dmgpath)` (osinstaller.py lines
233-243): run the supervision, return True on normal completion; catch
`StartOSInstallError`, log its message at error level, and return False.  An
OverflowError from the progress parser is not caught here. -/
def startosinstall (w : World) (dmgpath : String) : TopOutcome × List Effect :=
  match start w dmgpath with
  | ⟨fx, _, .ok⟩ => (.ret true, fx)
  | ⟨fx, _, .raisedSOSI e⟩ =>
    (.ret false, fx ++ [.displayError ("Error starting macOS install: " ++ e.message)])
  | ⟨fx, _, .raisedOverflow⟩ => (.uncaughtOverflow, fx)
  | ⟨fx, _, .stuck⟩ => (.stuck, fx)

/-! ## Concrete worlds used to evaluate the model -/

/-- World of a successful run: a valid image with one mounted volume holding
one installer app; the process emits one status line and exits 0. -/
def okW : World where
  validDiskImageExt := true
  mountpoints := ["/Volumes/Install macOS Sierra"]
  dirItems := [("Install macOS Sierra.app", true)]
  installInfoVersion := some "10.12.4"
  parentDir := "/usr/local/munki/munkilib"
  pathExists := fun _ => false
  pid := 1234
  parentEnv := [("PATH", "/usr/bin")]
  ticks := [⟨"Preparing to run install\n", none⟩, ⟨"", some 0⟩]
  stderrLines := []

/-- Same world but the process writes one line and exits with code 1, with a
line left on stderr. -/
def failW : World :=
  { okW with ticks := [⟨"hello\n", none⟩, ⟨"", some 1⟩], stderrLines := ["err one"] }

/-- World whose dmg path has no valid disk-image extension. -/
def badExtW : World := { okW with validDiskImageExt := false }

/-- World where mounting the image yields no mountpoints. -/
def noMountW : World := { okW with mountpoints := [] }

/-- World where no app on the volume contains the startosinstall tool. -/
def noBundleW : World := { okW with dirItems := [("Other.app", false)] }

/-- World where the process emits a line whose progress suffix parses as an
infinite float. -/
def infLineW : World := { okW with ticks := [⟨"Preparing inf\n", none⟩, ⟨"", some 0⟩] }

/-- Tick script of a process that never writes and never exits: 7200
consecutive polls observe no data and a live process. -/
def timeoutTicks : List Tick := List.replicate timeoutSeconds ⟨"", none⟩

/-- World of a run that hits the 2-hour inactivity ceiling. -/
def timeoutW : World := { okW with ticks := timeoutTicks }

/-- Is this effect the unmount call? -/
def isUnmount : Effect → Bool
  | .unmountDmg => true
  | _ => false

/-- Is this effect the kill call? -/
def isKill : Effect → Bool
  | .killProc => true
  | _ => false

/-- The message of an error-level display effect, if it is one. -/
def errOf : Effect → Option String
  | .displayError s => some s
  | _ => none

/-- Is this effect a subprocess spawn? -/
def isSpawn : Effect → Bool
  | .spawn _ _ => true
  | _ => false

/-! ## Helper lemmas about the loop and the phases -/

/-- Effects appended by the read loop are only sleeps, percent reports, minor
status lines, error lines and the kill: counting by any predicate false on
all of those leaves the count of the incoming accumulator. -/
theorem runLoop_countP_eq (p : Effect → Bool)
    (hsleep : ∀ n, p (.sleepSeconds n) = false)
    (hpct : ∀ n m, p (.displayPercentDone n m) = false)
    (hmin : ∀ s, p (.displayStatusMinor s) = false)
    (herr : ∀ s, p (.displayError s) = false)
    (hkill : p .killProc = false) :
    ∀ (script : List Tick) (inactive : Nat) (out : List String) (fx : List Effect),
      ((runLoop script inactive out fx).effects.countP p) = fx.countP p := by
  intro script
  induction script with
  | nil => intro i out fx; rfl
  | cons t rest ih =>
    intro i out fx
    unfold runLoop
    split
    · split
      · rfl
      · split
        · simp [List.countP_append, List.countP_cons, herr, hkill]
        · rw [ih]
          simp [List.countP_append, List.countP_cons, hsleep]
    · split
      · rw [ih]
      · rw [ih]
        simp [List.countP_append, List.countP_cons, hpct]
      · rw [ih]
        simp [List.countP_append, List.countP_cons, hmin]
      · rfl

/-- When the loop ends by observing a process exit, it has emitted no
error-level lines beyond those already in the accumulator (the only
error-emitting branch, the timeout kill, ends the loop differently). -/
theorem runLoop_exited_filterMap_errOf :
    ∀ (script : List Tick) (i : Nat) (out : List String) (fx : List Effect) (c : Int),
      (runLoop script i out fx).outcome = .exited c →
      (runLoop script i out fx).effects.filterMap errOf = fx.filterMap errOf := by
  intro script
  induction script with
  | nil => intro i out fx c h; exact absurd h (by simp [runLoop])
  | cons t rest ih =>
    intro i out fx c h
    unfold runLoop at h ⊢
    revert h
    split
    · split
      · intro _; rfl
      · split
        · intro h; exact absurd h (by simp)
        · intro h
          rw [ih _ _ _ _ h]
          simp [errOf]
    · split
      · intro h; rw [ih _ _ _ _ h]
      · intro h
        rw [ih _ _ _ _ h]
        simp [errOf]
      · intro h
        rw [ih _ _ _ _ h]
        simp [errOf]
      · intro h; exact absurd h (by simp)

/-- Error-level dump of a mapped display-error list is the mapped list. -/
theorem filterMap_errOf_map_displayError (g : String → String) (l : List String) :
    (l.map (fun s => Effect.displayError (g s))).filterMap errOf = l.map g := by
  induction l with
  | nil => rfl
  | cons a t ih => simp [errOf, ih]

/-- The last argument block of the command line is fixed and ends with
`--nointeraction`. -/
theorem fixedArgs_getLast? (a b c : String) :
    (fixedArgs a b c).getLast? = some "--nointeraction" := rfl

/-- Under the hypotheses that the image is valid, something mounted, and an
app with the tool was found, `start` reduces to the loop followed by the
termination phase, with the four pre-loop effects. -/
theorem start_eq_afterLoop (w : World) (dmgpath mp : String) (rest : List String)
    (app sosi : String)
    (hvalid : w.validDiskImageExt = true)
    (hmp : w.mountpoints = mp :: rest)
    (hfind : findApp mp w.dirItems = some (app, sosi)) :
    start w dmgpath = afterLoop
      [Effect.setSigusr1Handler,
       Effect.displayInfo ("Mounting disk image " ++ dmgpath),
       Effect.displayStatusMajor ("Starting macOS " ++ get_os_version w ++ " install..."),
       Effect.spawn (buildCmd w sosi app (toString w.pid) (get_os_version w)) spawnEnvArg]
      (some mp) w.stderrLines (runLoop w.ticks 0 [] []) := by
  unfold start get_tool_paths
  simp [hvalid, hmp, hfind, popenChildEnv]

/-! ## Claim theorems -/

/-- C2: for an output line exactly equal to "Preparing 42.0.", classification
strips the fixed 10-character prefix, trailing whitespace and the trailing
period, parses the remainder as the real number 42.0, truncates it to the
integer 42, and emits a Progress event with percent 42. -/
theorem claim_C2_preparing_42 :
    classifyMsg "Preparing 42.0." = .progress 42 ∧
    pyDropChars "Preparing 42.0." 10 = "42.0." ∧
    pyRstrip (fun c => c = '.') (pyRstrip isPySpace "42.0.") = "42.0" ∧
    pyFloatOfString "42.0" = some (.finite ⟨420, -1, false⟩) ∧
    (⟨420, -1, false⟩ : PyFinite).val = 42 ∧
    pyIntOfFinite ⟨420, -1, false⟩ = 42 ∧
    (runLoop [⟨"Preparing 42.0.", none⟩] 0 [] []).effects
      = [.displayPercentDone 42 100] := by
  refine ⟨by decide, by decide, by decide, by decide, ?_, by decide, by decide⟩
  norm_num [PyFinite.val]

/-- C3 (claim refuted by the code): a line starting with "Preparing " whose
suffix is genuinely malformed does yield percent -1 without raising, but a
suffix that parses as an infinite float ("inf" here) makes `int()` raise
OverflowError, which the `except ValueError` handler does not catch: the
exception aborts the read loop and propagates uncaught through
`startosinstall`, so parsing is not exception-free for every suffix. -/
theorem claim_C3_inf_suffix_raises :
    classifyMsg "Preparing NaN%" = .progress (-1) ∧
    classifyMsg "Preparing garbage." = .progress (-1) ∧
    pyFloatOfString "inf" = some (.infinite false) ∧
    classifyMsg "Preparing inf" = .overflowRaised ∧
    (runLoop [⟨"Preparing inf\n", none⟩, ⟨"", some 0⟩] 0 [] []).outcome
      = .raisedOverflow ∧
    (start infLineW "/tmp/install.dmg").outcome = .raisedOverflow ∧
    (startosinstall infLineW "/tmp/install.dmg").1 = .uncaughtOverflow :=
  ⟨by decide, by decide, by decide, by decide, by decide, by decide, by decide⟩

/-- C8 is false as stated: the line "Preparing 250." is classified as a
Progress event with percent 250, which neither lies in 0..100 nor equals the
sentinel -1 (the parsed value is forwarded unclamped). -/
theorem claim_C8_counterexample :
    classifyMsg "Preparing 250." = .progress 250 ∧
    ¬ ((0 ≤ (250 : Int) ∧ (250 : Int) ≤ 100) ∨ (250 : Int) = -1) :=
  ⟨by decide, by decide⟩

/-- C4: the built command line has "--volume" "/" as its final two arguments
exactly when the resolved OS version is less than "10.12.4" in the
spec-modelled loose version order; in particular the flag is appended for
"10.12.3", not for "10.12.4", and is appended when the version string is
empty or unparseable. -/
theorem claim_C4_volume_flag (w : World) (sosi app pidStr ver : String) :
    (List.IsSuffix ["--volume", "/"] (buildCmd w sosi app pidStr ver) ↔
      looseVersionLt ver "10.12.4" = true) ∧
    looseVersionLt "10.12.3" "10.12.4" = true ∧
    looseVersionLt "10.12.4" "10.12.4" = false ∧
    looseVersionLt "" "10.12.4" = true ∧
    looseVersionLt "not a version" "10.12.4" = true := by
  refine ⟨?_, by decide, by decide, by decide, by decide⟩
  unfold buildCmd
  cases h : looseVersionLt ver "10.12.4" with
  | true =>
    simp only [h, if_true]
    exact iff_of_true (List.suffix_append _ _) trivial
  | false =>
    simp only [h, Bool.false_eq_true, if_false, List.append_nil]
    refine iff_of_false ?_ (by simp)
    rintro ⟨t, ht⟩
    have h2 := congrArg List.getLast? ht
    rw [show t ++ ["--volume", "/"] = (t ++ ["--volume"]) ++ ["/"] by simp,
        List.getLast?_concat,
        List.getLast?_append_of_ne_nil _ (by simp [fixedArgs]),
        fixedArgs_getLast?] at h2
    exact (by decide : ("/" : String) ≠ "--nointeraction") (Option.some.inj h2)

/-- C9: the installed SIGUSR1 handler performs exactly this sequence: log the
receipt, sleep the fixed one-second grace delay, then broadcast SIGUSR1 by
name to every startosinstall process via killall (not a direct signal to the
spawned child pid), and it leaves every ProcessSession field (inactivity
counter, accumulated output, mountpoint) unchanged; the supervision run
installs the handler as its first action. -/
theorem claim_C9_sigusr1_handler (session : ProcessSession) (w : World) (dmgpath : String) :
    sigusr1_handler session =
      ([.displayInfo "Got SIGUSR1 from startosinstall",
        .sleepSeconds 1,
        .subprocessCall ["/usr/bin/killall", "-SIGUSR1", "startosinstall"]],
       session) ∧
    (sigusr1_handler session).2.inactive = session.inactive ∧
    (sigusr1_handler session).2.output = session.output ∧
    (sigusr1_handler session).2.dmgMountpoint = session.dmgMountpoint ∧
    (start w dmgpath).effects.head? = some .setSigusr1Handler := by
  refine ⟨rfl, rfl, rfl, rfl, ?_⟩
  unfold start
  split
  · rfl
  · unfold afterLoop
    split <;> rfl

/-- Tool-path resolution spawns nothing (it only logs the mount and possibly
unmounts). -/
theorem get_tool_paths_no_spawn (w : World) (dmgpath : String)
    (cmd : List String) (env : List (String × String)) :
    Effect.spawn cmd env ∉ (get_tool_paths w dmgpath).effects := by
  unfold get_tool_paths
  split
  · split
    · simp
    · split
      · simp
      · simp
  · simp

/-- The read loop spawns nothing beyond what was already accumulated. -/
theorem runLoop_no_spawn (script : List Tick) (i : Nat) (out : List String)
    (cmd : List String) (env : List (String × String)) :
    Effect.spawn cmd env ∉ (runLoop script i out []).effects := by
  intro hmem
  have h := runLoop_countP_eq isSpawn (fun _ => rfl) (fun _ _ => rfl) (fun _ => rfl)
    (fun _ => rfl) rfl script i out []
  have := List.countP_eq_zero.mp h _ hmem
  simp [isSpawn] at this

/-- The termination phase spawns nothing. -/
theorem finishPhase_no_spawn (retcode : Option Int) (out errs : List String)
    (cmd : List String) (env : List (String × String)) :
    Effect.spawn cmd env ∉ (finishPhase retcode out errs).effects := by
  unfold finishPhase
  split <;> simp

/-- Any spawn in the effects of the post-loop continuation was already in the
pre-loop effects or in the loop effects. -/
theorem afterLoop_no_new_spawn (pre : List Effect) (mp : Option String)
    (errs : List String) (lr : LoopResult)
    (cmd : List String) (env : List (String × String))
    (h : Effect.spawn cmd env ∈ (afterLoop pre mp errs lr).effects) :
    Effect.spawn cmd env ∈ pre ∨ Effect.spawn cmd env ∈ lr.effects := by
  rcases lr with ⟨oc, out, fx⟩
  cases oc <;> simp only [afterLoop] at h
  case exited c =>
    rcases List.mem_append.mp h with h1 | h2
    · exact (List.mem_append.mp h1).imp id id
    · exact absurd h2 (finishPhase_no_spawn _ _ _ _ _)
  case timedKill =>
    rcases List.mem_append.mp h with h1 | h2
    · exact (List.mem_append.mp h1).imp id id
    · exact absurd h2 (finishPhase_no_spawn _ _ _ _ _)
  case raisedOverflow => exact (List.mem_append.mp h).imp id id
  case exhausted => exact (List.mem_append.mp h).imp id id

/-- C10: the installer subprocess is launched with its environment wholly
replaced: every spawn effect of the run carries exactly the single-variable
environment NSUnbufferedIO = ",YES" (leading comma included), and the Popen
semantics modelled by `popenChildEnv` discard the parent environment whenever
an env mapping is supplied. -/
theorem claim_C10_spawn_env (w : World) (dmgpath : String)
    (cmd : List String) (env : List (String × String))
    (h : Effect.spawn cmd env ∈ (start w dmgpath).effects) :
    env = [("NSUnbufferedIO", ",YES")] ∧
    popenChildEnv (some spawnEnvArg) w.parentEnv = [("NSUnbufferedIO", ",YES")] := by
  refine ⟨?_, rfl⟩
  unfold start at h
  rcases hg : get_tool_paths w dmgpath with ⟨fx, mp, res⟩
  rw [hg] at h
  have hfx : Effect.spawn cmd env ∉ fx := by
    have h0 := get_tool_paths_no_spawn w dmgpath cmd env
    rw [hg] at h0
    exact h0
  cases res with
  | error e =>
    dsimp only at h
    rcases List.mem_append.mp h with h1 | h2
    · simp at h1
    · exact absurd h2 hfx
  | ok pair =>
    obtain ⟨a, b⟩ := pair
    dsimp only at h
    rcases afterLoop_no_new_spawn _ _ _ _ _ _ h with h1 | h2
    · rcases List.mem_append.mp h1 with h3 | h4
      · rcases List.mem_append.mp h3 with h5 | h6
        · simp at h5
        · exact absurd h6 hfx
      · simp only [List.mem_cons, List.not_mem_nil, or_false] at h4
        rcases h4 with h9 | h9
        · exact Effect.noConfusion h9
        · injection h9 with heq henv
    · exact absurd h2 (runLoop_no_spawn _ _ _ _ _)

/-- Witness for C10: in the concrete successful world, the run performs a
spawn whose environment is exactly the single replaced variable. -/
theorem claim_C10_spawn_env_witness :
    (Effect.spawn
        (buildCmd okW
          "/Volumes/Install macOS Sierra/Install macOS Sierra.app/Contents/Resources/startosinstall"
          "/Volumes/Install macOS Sierra/Install macOS Sierra.app" "1234" "10.12.4")
        spawnEnvArg ∈ (start okW "/tmp/install.dmg").effects) ∧
    spawnEnvArg = [("NSUnbufferedIO", ",YES")] :=
  ⟨by decide,
   (claim_C10_spawn_env okW "/tmp/install.dmg"
     (buildCmd okW
       "/Volumes/Install macOS Sierra/Install macOS Sierra.app/Contents/Resources/startosinstall"
       "/Volumes/Install macOS Sierra/Install macOS Sierra.app" "1234" "10.12.4")
     spawnEnvArg (by decide)).1⟩

/-- The continuation after an observed exit, written out. -/
theorem afterLoop_exited (pre : List Effect) (mp : Option String) (errs : List String)
    (c : Int) (out : List String) (fx : List Effect) :
    afterLoop pre mp errs ⟨.exited c, out, fx⟩ =
      ⟨pre ++ fx ++ (finishPhase (some c) out errs).effects, mp,
       outcomeOfFinish (finishPhase (some c) out errs).result⟩ := rfl

/-- The continuation after the timeout kill, written out: the return code fed
to the termination phase is None. -/
theorem afterLoop_timedKill (pre : List Effect) (mp : Option String) (errs : List String)
    (out : List String) (fx : List Effect) :
    afterLoop pre mp errs ⟨.timedKill, out, fx⟩ =
      ⟨pre ++ fx ++ (finishPhase none out errs).effects, mp,
       outcomeOfFinish (finishPhase none out errs).result⟩ := rfl

/-- Termination phase on return code 0: success branch. -/
theorem finishPhase_zero (out errs : List String) :
    finishPhase (some 0) out errs =
      ⟨[Effect.munkiLog "macOS install successfully set up.",
        Effect.munkistatusPercent 100], .ok ()⟩ := rfl

/-- Termination phase on return code None (the timeout-kill path): `None` is
falsy, so the success branch runs. -/
theorem finishPhase_none (out errs : List String) :
    finishPhase none out errs =
      ⟨[Effect.munkiLog "macOS install successfully set up.",
        Effect.munkistatusPercent 100], .ok ()⟩ := rfl

/-- Termination phase on a nonzero return code: failure branch, written
out. -/
theorem finishPhase_some_nonzero (c : Int) (hc : c ≠ 0) (out errs : List String) :
    finishPhase (some c) out errs =
      ⟨[Effect.unmountDmg,
        Effect.displayStatusMinor
          ("Starting macOS install failed with return code " ++ toString c),
        Effect.displayError sep78]
       ++ (out ++ errs).map (fun l => Effect.displayError (pyRstrip (fun ch => ch = '\n') l))
       ++ [Effect.displayError sep78],
       .error ⟨"startosinstall failed with return code " ++ toString c⟩⟩ := by
  unfold finishPhase
  rw [show pyTruthyRetcode (some c) = true by simp [pyTruthyRetcode, hc]]
  rfl

/-- C5: whenever the supervised process exits with return code zero (after a
successful mount and tool lookup), the run ends normally without raising, the
tracked mountpoint is left unchanged, no unmount is performed, the durable
success log line is recorded, and the 100 percent completion event is the
last effect emitted. -/
theorem claim_C5_zero_exit (w : World) (dmgpath mp : String) (rest : List String)
    (app sosi : String)
    (hvalid : w.validDiskImageExt = true)
    (hmp : w.mountpoints = mp :: rest)
    (hfind : findApp mp w.dirItems = some (app, sosi))
    (hloop : (runLoop w.ticks 0 [] []).outcome = .exited 0) :
    (start w dmgpath).outcome = .ok ∧
    (start w dmgpath).dmgMountpoint = some mp ∧
    (start w dmgpath).effects.countP isUnmount = 0 ∧
    Effect.munkiLog "macOS install successfully set up." ∈ (start w dmgpath).effects ∧
    (start w dmgpath).effects.getLast? = some (Effect.munkistatusPercent 100) := by
  have hcnt := runLoop_countP_eq isUnmount (fun _ => rfl) (fun _ _ => rfl) (fun _ => rfl)
    (fun _ => rfl) rfl w.ticks 0 [] []
  rw [start_eq_afterLoop w dmgpath mp rest app sosi hvalid hmp hfind]
  rcases hlr : runLoop w.ticks 0 [] [] with ⟨oc, out, fx⟩
  rw [hlr] at hloop hcnt
  dsimp only at hloop hcnt
  subst hloop
  rw [afterLoop_exited, finishPhase_zero]
  refine ⟨rfl, rfl, ?_, ?_, ?_⟩
  · simp only [List.countP_append, hcnt]
    rfl
  · simp [List.mem_append]
  · rw [show ∀ A : List Effect,
        A ++ [Effect.munkiLog "macOS install successfully set up.",
              Effect.munkistatusPercent 100] =
        (A ++ [Effect.munkiLog "macOS install successfully set up."])
          ++ [Effect.munkistatusPercent 100] from fun A => by simp]
    exact List.getLast?_concat _

/-- Witness for C5: the concrete successful world satisfies the hypotheses
and the conclusions. -/
theorem claim_C5_zero_exit_witness :
    okW.validDiskImageExt = true ∧
    okW.mountpoints = "/Volumes/Install macOS Sierra" :: [] ∧
    findApp "/Volumes/Install macOS Sierra" okW.dirItems =
      some ("/Volumes/Install macOS Sierra/Install macOS Sierra.app",
            "/Volumes/Install macOS Sierra/Install macOS Sierra.app/Contents/Resources/startosinstall") ∧
    (runLoop okW.ticks 0 [] []).outcome = .exited 0 ∧
    ((start okW "/tmp/install.dmg").outcome = .ok ∧
     (start okW "/tmp/install.dmg").dmgMountpoint = some "/Volumes/Install macOS Sierra" ∧
     (start okW "/tmp/install.dmg").effects.countP isUnmount = 0 ∧
     Effect.munkiLog "macOS install successfully set up." ∈ (start okW "/tmp/install.dmg").effects ∧
     (start okW "/tmp/install.dmg").effects.getLast? = some (Effect.munkistatusPercent 100)) :=
  ⟨rfl, rfl, by decide, by decide,
   claim_C5_zero_exit okW "/tmp/install.dmg" "/Volumes/Install macOS Sierra" []
     "/Volumes/Install macOS Sierra/Install macOS Sierra.app"
     "/Volumes/Install macOS Sierra/Install macOS Sierra.app/Contents/Resources/startosinstall"
     rfl rfl (by decide) (by decide)⟩

/-- C6: whenever the supervised process exits with a nonzero return code
(after a successful mount and tool lookup), the run unmounts the volume
exactly once, appends the drained stderr lines after the accumulated stdout
lines, dumps every accumulated line at error level in original order between
the two separator lines (these are the only error-level lines), emits the
failure status event carrying the return code, and raises
StartOSInstallError carrying the return code. -/
theorem claim_C6_nonzero_exit (w : World) (dmgpath mp : String) (rest : List String)
    (app sosi : String) (c : Int)
    (hvalid : w.validDiskImageExt = true)
    (hmp : w.mountpoints = mp :: rest)
    (hfind : findApp mp w.dirItems = some (app, sosi))
    (hloop : (runLoop w.ticks 0 [] []).outcome = .exited c)
    (hc : c ≠ 0) :
    (start w dmgpath).effects.countP isUnmount = 1 ∧
    (start w dmgpath).effects.filterMap errOf =
      [sep78] ++ ((runLoop w.ticks 0 [] []).output ++ w.stderrLines).map
        (pyRstrip (fun ch => ch = '\n')) ++ [sep78] ∧
    Effect.displayStatusMinor ("Starting macOS install failed with return code " ++ toString c)
      ∈ (start w dmgpath).effects ∧
    (start w dmgpath).outcome =
      .raisedSOSI ⟨"startosinstall failed with return code " ++ toString c⟩ := by
  have hcnt := runLoop_countP_eq isUnmount (fun _ => rfl) (fun _ _ => rfl) (fun _ => rfl)
    (fun _ => rfl) rfl w.ticks 0 [] []
  have hfil := runLoop_exited_filterMap_errOf w.ticks 0 [] [] c hloop
  rw [start_eq_afterLoop w dmgpath mp rest app sosi hvalid hmp hfind]
  rcases hlr : runLoop w.ticks 0 [] [] with ⟨oc, out, fx⟩
  rw [hlr] at hloop hcnt hfil
  dsimp only at hloop hcnt hfil ⊢
  subst hloop
  rw [afterLoop_exited, finishPhase_some_nonzero c hc]
  refine ⟨?_, ?_, ?_, rfl⟩
  · simp only [List.countP_append, hcnt, List.countP_map]
    have hz : ∀ l : List String,
        List.countP (isUnmount ∘ fun s =>
          Effect.displayError (pyRstrip (fun ch => ch = '\n') s)) l = 0 :=
      fun l => List.countP_eq_zero.mpr (fun a _ => by simp [isUnmount, Function.comp])
    rw [hz, hz]
    rfl
  · simp only [List.filterMap_append, hfil, filterMap_errOf_map_displayError]
    rfl
  · simp [List.mem_append]

/-- Witness for C6: the concrete failing world (exit code 1, one stdout line
and one drained stderr line) satisfies the hypotheses and conclusions. -/
theorem claim_C6_nonzero_exit_witness :
    failW.validDiskImageExt = true ∧
    failW.mountpoints = "/Volumes/Install macOS Sierra" :: [] ∧
    findApp "/Volumes/Install macOS Sierra" failW.dirItems =
      some ("/Volumes/Install macOS Sierra/Install macOS Sierra.app",
            "/Volumes/Install macOS Sierra/Install macOS Sierra.app/Contents/Resources/startosinstall") ∧
    (runLoop failW.ticks 0 [] []).outcome = .exited 1 ∧
    (1 : Int) ≠ 0 ∧
    ((start failW "/tmp/install.dmg").effects.countP isUnmount = 1 ∧
     (start failW "/tmp/install.dmg").effects.filterMap errOf =
       [sep78] ++ ((runLoop failW.ticks 0 [] []).output ++ failW.stderrLines).map
         (pyRstrip (fun ch => ch = '\n')) ++ [sep78] ∧
     Effect.displayStatusMinor ("Starting macOS install failed with return code " ++ toString (1 : Int))
       ∈ (start failW "/tmp/install.dmg").effects ∧
     (start failW "/tmp/install.dmg").outcome =
       .raisedSOSI ⟨"startosinstall failed with return code " ++ toString (1 : Int)⟩) :=
  ⟨rfl, rfl, by decide, by decide, by decide,
   claim_C6_nonzero_exit failW "/tmp/install.dmg" "/Volumes/Install macOS Sierra" []
     "/Volumes/Install macOS Sierra/Install macOS Sierra.app"
     "/Volumes/Install macOS Sierra/Install macOS Sierra.app/Contents/Resources/startosinstall"
     1 rfl rfl (by decide) (by decide) (by decide)⟩

/-- On a script of consecutive no-data polls of a live process, the loop
reaches the inactivity ceiling and kills: starting from inactivity count
i < ceiling with at least (ceiling - i) such ticks available, it emits one
sleep per tick short of the ceiling, then the timeout error and the kill, and
ends as timedKill with the accumulated output untouched. -/
theorem runLoop_replicate_timeout (k : Nat) :
    ∀ (i : Nat) (out : List String) (fx : List Effect),
      timeoutSeconds ≤ i + k → i < timeoutSeconds →
      runLoop (List.replicate k ⟨"", none⟩) i out fx =
        ⟨.timedKill, out,
         fx ++ List.replicate (timeoutSeconds - i - 1) (.sleepSeconds 1)
            ++ [.displayError timeoutMsg, .killProc]⟩ := by
  induction k with
  | zero => intro i out fx hik hi; omega
  | succ k ih =>
    intro i out fx hik hi
    rw [List.replicate_succ]
    by_cases h1 : timeoutSeconds ≤ i + 1
    · have hrepl : timeoutSeconds - i - 1 = 0 := by omega
      have hstep : runLoop (⟨"", none⟩ :: List.replicate k ⟨"", none⟩) i out fx
          = ⟨.timedKill, out, fx ++ [.displayError timeoutMsg, .killProc]⟩ := by
        conv_lhs => unfold runLoop
        simp [h1]
      rw [hstep, hrepl]
      simp
    · have hstep : runLoop (⟨"", none⟩ :: List.replicate k ⟨"", none⟩) i out fx
          = runLoop (List.replicate k ⟨"", none⟩) (i + 1) out (fx ++ [.sleepSeconds 1]) := by
        conv_lhs => unfold runLoop
        simp [h1]
      rw [hstep]
      rw [ih (i + 1) out (fx ++ [Effect.sleepSeconds 1]) (by omega) (by omega)]
      have h2 : timeoutSeconds - i - 1 = (timeoutSeconds - (i + 1) - 1) + 1 := by omega
      rw [h2, List.replicate_succ]
      simp

/-- C1 (claim refuted by the code): after 7200 consecutive no-output polls of
a live process the loop does print the timeout diagnostic and kill the
process, but `proc.returncode` is still None, because only `poll()` assigns
it and the last poll saw the process alive; `if retcode:` is then falsy, so
the run takes the success branch: it ends normally, performs no unmount,
raises no StartOSInstallError, records the success log line, emits the 100
percent completion event, and `startosinstall` returns True. -/
theorem claim_C1_timeout_reported_as_success :
    (runLoop timeoutTicks 0 [] []).outcome = .timedKill ∧
    (runLoop timeoutTicks 0 [] []).effects.countP isKill = 1 ∧
    Effect.displayError timeoutMsg ∈ (runLoop timeoutTicks 0 [] []).effects ∧
    (start timeoutW "/tmp/install.dmg").outcome = .ok ∧
    (start timeoutW "/tmp/install.dmg").effects.countP isUnmount = 0 ∧
    Effect.munkiLog "macOS install successfully set up."
      ∈ (start timeoutW "/tmp/install.dmg").effects ∧
    (start timeoutW "/tmp/install.dmg").effects.getLast?
      = some (Effect.munkistatusPercent 100) ∧
    (startosinstall timeoutW "/tmp/install.dmg").1 = .ret true := by
  have hlr : runLoop timeoutTicks 0 [] [] =
      ⟨.timedKill, [],
       List.replicate (timeoutSeconds - 1) (.sleepSeconds 1)
         ++ [.displayError timeoutMsg, .killProc]⟩ := by
    have h := runLoop_replicate_timeout timeoutSeconds 0 [] []
      (by omega) (by norm_num [timeoutSeconds])
    simpa [timeoutTicks] using h
  have hs := start_eq_afterLoop timeoutW "/tmp/install.dmg" "/Volumes/Install macOS Sierra" []
      "/Volumes/Install macOS Sierra/Install macOS Sierra.app"
      "/Volumes/Install macOS Sierra/Install macOS Sierra.app/Contents/Resources/startosinstall"
      rfl rfl (by decide)
  rw [show timeoutW.ticks = timeoutTicks from rfl, hlr, afterLoop_timedKill, finishPhase_none] at hs
  refine ⟨by rw [hlr], ?_, ?_, ?_, ?_, ?_, ?_, ?_⟩
  · rw [hlr]
    simp [List.countP_append, List.countP_replicate, isKill, List.countP_cons]
  · rw [hlr]
    simp
  · rw [hs]
    rfl
  · rw [hs]
    simp [List.countP_append, List.countP_replicate, isUnmount, List.countP_cons]
  · rw [hs]
    simp
  · rw [hs]
    rw [show ∀ (A B : List Effect),
        A ++ B ++ [Effect.munkiLog "macOS install successfully set up.",
                   Effect.munkistatusPercent 100] =
        (A ++ B ++ [Effect.munkiLog "macOS install successfully set up."])
          ++ [Effect.munkistatusPercent 100] from fun A B => by simp]
    exact List.getLast?_concat _
  · unfold startosinstall
    rw [hs]
    rfl

/-- C7: the public startosinstall operation is a boolean boundary: for every
world it returns True exactly when the supervision run completes normally and
False exactly when the run raised StartOSInstallError; each representative
failure cause — invalid disk-image extension, no mountpoints, no bundle
containing the tool, nonzero installer exit — is converted to False, and the
logged error message is the last effect on the invalid-image path. -/
theorem claim_C7_boolean_boundary (w : World) (dmgpath : String) :
    ((startosinstall w dmgpath).1 = .ret true ↔ (start w dmgpath).outcome = .ok) ∧
    ((startosinstall w dmgpath).1 = .ret false ↔
      ∃ e, (start w dmgpath).outcome = .raisedSOSI e) ∧
    (startosinstall badExtW "/tmp/notdmg.txt").1 = .ret false ∧
    (startosinstall noMountW "/tmp/install.dmg").1 = .ret false ∧
    (startosinstall noBundleW "/tmp/install.dmg").1 = .ret false ∧
    (startosinstall failW "/tmp/install.dmg").1 = .ret false ∧
    (startosinstall badExtW "/tmp/notdmg.txt").2.getLast? =
      some (.displayError ("Error starting macOS install: /tmp/notdmg.txt doesn" ++ apos
        ++ "t appear to be a disk image")) := by
  refine ⟨?_, ?_, by decide, by decide, by decide, by decide, by decide⟩
  · unfold startosinstall
    rcases hs : start w dmgpath with ⟨fx, mp, oc⟩
    cases oc <;> simp
  · unfold startosinstall
    rcases hs : start w dmgpath with ⟨fx, mp, oc⟩
    cases oc <;> simp

/-- Truncation toward zero of a finite float lies in [0, 100] whenever its
exact rational value does. -/
theorem pyIntOfFinite_bounds (f : PyFinite) (h0 : 0 ≤ f.val) (h100 : f.val ≤ 100) :
    0 ≤ pyIntOfFinite f ∧ pyIntOfFinite f ≤ 100 := by
  rcases f with ⟨m, e, neg⟩
  cases neg with
  | false =>
    have hval : (⟨m, e, false⟩ : PyFinite).val = (m : ℚ) * (10 : ℚ) ^ e := by
      simp [PyFinite.val]
    by_cases he : 0 ≤ e
    · have hz : (10 : ℚ) ^ e = ((10 ^ e.toNat : ℕ) : ℚ) := by
        push_cast
        rw [← zpow_natCast (10 : ℚ) e.toNat, Int.toNat_of_nonneg he]
      have hmag : pyIntOfFinite ⟨m, e, false⟩ = ((m * 10 ^ e.toNat : ℕ) : ℤ) := by
        simp [pyIntOfFinite, he]
      rw [hmag]
      refine ⟨Int.ofNat_nonneg _, ?_⟩
      have hq : ((m * 10 ^ e.toNat : ℕ) : ℚ) ≤ 100 := by
        rw [hval, hz] at h100
        push_cast at h100 ⊢
        linarith
      have hn : (m * 10 ^ e.toNat : ℕ) ≤ 100 := by exact_mod_cast hq
      exact_mod_cast hn
    · have hz : (10 : ℚ) ^ e = (((10 ^ (-e).toNat : ℕ) : ℚ))⁻¹ := by
        push_cast
        rw [← zpow_natCast (10 : ℚ) (-e).toNat, ← zpow_neg]
        congr 1
        omega
      have hmag : pyIntOfFinite ⟨m, e, false⟩ = ((m / 10 ^ (-e).toNat : ℕ) : ℤ) := by
        simp [pyIntOfFinite, he]
      rw [hmag]
      refine ⟨Int.ofNat_nonneg _, ?_⟩
      have hle : ((m / 10 ^ (-e).toNat : ℕ) : ℚ) ≤ (m : ℚ) / ((10 ^ (-e).toNat : ℕ) : ℚ) :=
        Nat.cast_div_le
      have hvq : (m : ℚ) / ((10 ^ (-e).toNat : ℕ) : ℚ) ≤ 100 := by
        rw [hval, hz] at h100
        rw [div_eq_mul_inv]
        exact h100
      have hq : ((m / 10 ^ (-e).toNat : ℕ) : ℚ) ≤ 100 := le_trans hle hvq
      have hn : (m / 10 ^ (-e).toNat : ℕ) ≤ 100 := by exact_mod_cast hq
      exact_mod_cast hn
  | true =>
    have hpos : (0 : ℚ) ≤ (m : ℚ) * (10 : ℚ) ^ e := by positivity
    have hneg : (⟨m, e, true⟩ : PyFinite).val = -((m : ℚ) * (10 : ℚ) ^ e) := by
      simp [PyFinite.val]
    have hzero : (m : ℚ) * (10 : ℚ) ^ e = 0 := by
      rw [hneg] at h0
      linarith
    have hm : (m : ℚ) = 0 := by
      rcases mul_eq_zero.mp hzero with h | h
      · exact h
      · exact absurd h (zpow_ne_zero _ (by norm_num))
    have hm0 : m = 0 := by exact_mod_cast hm
    subst hm0
    have hfin : pyIntOfFinite ⟨0, e, true⟩ = 0 := by
      unfold pyIntOfFinite
      by_cases he : 0 ≤ e <;> simp [he]
    rw [hfin]
    norm_num

/-- C8 amended: every Progress event carries either the -1 sentinel or the
truncation toward zero of the exact value of the parsed numeric suffix; the
percent lies in 0..100 whenever that value does, but it is not clamped, so
out-of-range values are forwarded unchanged (see the counterexample at
250). -/
theorem claim_C8_amended (msg : String) (p : Int)
    (h : classifyMsg msg = .progress p) :
    p = -1 ∨ ∃ f : PyFinite,
      pyFloatOfString (pyRstrip (fun c => c = '.')
        (pyRstrip isPySpace (pyDropChars msg 10))) = some (.finite f) ∧
      p = pyIntOfFinite f ∧
      (0 ≤ f.val → f.val ≤ 100 → 0 ≤ p ∧ p ≤ 100) := by
  unfold classifyMsg at h
  split at h
  · exact absurd h (by simp)
  · split at h
    · exact absurd h (by simp)
    · split at h
      · unfold pyIntFloatCaught at h
        cases hp : pyFloatOfString (pyRstrip (fun c => c = '.')
            (pyRstrip isPySpace (pyDropChars msg 10))) with
        | none =>
          rw [hp] at h
          dsimp at h
          left
          exact (ClassifyResult.progress.inj h).symm
        | some pf =>
          rw [hp] at h
          cases pf with
          | nan =>
            dsimp at h
            left
            exact (ClassifyResult.progress.inj h).symm
          | infinite b => exact absurd h (by simp)
          | finite f =>
            dsimp at h
            right
            refine ⟨f, rfl, (ClassifyResult.progress.inj h).symm, ?_⟩
            intro hv0 hv100
            rw [← (ClassifyResult.progress.inj h)]
            exact pyIntOfFinite_bounds f hv0 hv100
      · exact absurd h (by simp)

/-- Witness for the amended C8 at the line "Preparing 250.": the percent 250
is the truncation of the parsed value and is forwarded unclamped. -/
theorem claim_C8_amended_witness :
    classifyMsg "Preparing 250." = .progress 250 ∧
    ((250 : Int) = -1 ∨ ∃ f : PyFinite,
      pyFloatOfString (pyRstrip (fun c => c = '.')
        (pyRstrip isPySpace (pyDropChars "Preparing 250." 10))) = some (.finite f) ∧
      (250 : Int) = pyIntOfFinite f ∧
      (0 ≤ f.val → f.val ≤ 100 → 0 ≤ (250 : Int) ∧ (250 : Int) ≤ 100)) :=
  ⟨by decide, claim_C8_amended "Preparing 250." 250 (by decide)⟩

end OSInstaller
